import Mathlib

/-!
Verification of the async-hid HID library against its specification.

This file gives a shallow embedding of the claim-relevant parts of the
source tree:

* `src/backend/hidraw/descriptor.rs` — the HID report-descriptor scanner
  (`next_hid_usage`, `hid_item_size`, `hid_report_bytes`, `UsageIterator`);
* `src/backend/hidraw/mod.rs` — `get_device_info_raw`, `read_property`,
  `parse_hid_vid_pid`, `mange_dev_name` and the device-path resolution done
  by `HidRawBackend::open` before any file is opened;
* `src/backend/hidraw/uevent.rs` — `UEvent::parse` / `parse_internal`;
* `src/backend/win32/buffer.rs` — the completion branch of
  `IoBuffer::<Readable>::read`;
* `src/backend/iohidmanager/read_writer.rs` — `DeviceReadWriter::write_report`;
* `src/backend/iohidmanager/mod.rs` — `AsyncQueue`, `register_watcher`,
  `notify_watchers`.

Rust byte buffers are modelled as `List Nat` (each entry a byte value),
strings as `List Char`, fallible computations as `Except`, and code that can
hit a Rust panic as `RunResult` with an explicit `crash` outcome.  Loops are
modelled with an explicit fuel parameter; running out of fuel is a separate
`outOfFuel` outcome, and the totality theorems below show that the chosen
fuel is always sufficient, so no behaviour is hidden by the encoding.
-/

/-- Outcome of running a piece of Rust code: a normal value, a panic
(`crash`, e.g. an out-of-bounds slice index), or exhaustion of the fuel used
to model a loop (`outOfFuel`, shown unreachable by the totality lemmas). -/
inductive RunResult (α : Type) where
  | crash : RunResult α
  | outOfFuel : RunResult α
  | ok : α → RunResult α
deriving DecidableEq, Repr

/-- The error taxonomy of `src/error.rs` (`HidError`); `Other` keeps only a
diagnostic string in place of the boxed OS error. -/
inductive HidError where
  | Disconnected
  | NotConnected
  | Message (msg : String)
  | Other (msg : String)
deriving DecidableEq, Repr

/-! ## Report-descriptor scanner (`src/backend/hidraw/descriptor.rs`)

The cursor of the Rust code is modelled by the byte list `data` plus an
explicit position.  `data[pos]?` is `cursor.bytes().next()`. -/

/-- Little-endian value of a byte list; models `u32::from_le_bytes` applied
to the 4-byte array zero-padded beyond the bytes actually read. -/
def le_bytes : List Nat → Nat
  | [] => 0
  | b :: rest => b + 256 * le_bytes rest

/-- Models `hid_item_size(key, cursor)`: returns `((data_len, key_size),
cursor position after the call)` or `None` for a malformed (truncated) long
item.  A long item (high nibble `0xf0`) reads its data length from the next
byte; a short item encodes it in the bottom two bits (`3` meaning 4 bytes).
The Rust `unreachable!()` arm has no counterpart because `key &&& 0x03 ≤ 3`. -/
def hid_item_size (key : Nat) (data : List Nat) (pos : Nat) : Option ((Nat × Nat) × Nat) :=
  if key &&& 0xf0 = 0xf0 then
    match data[pos]? with
    | some len => some ((len, 3), pos + 1)
    | none => none
  else
    match key &&& 0x03 with
    | 0 => some ((0, 1), pos)
    | 1 => some ((1, 1), pos)
    | 2 => some ((2, 1), pos)
    | _ => some ((4, 1), pos)

/-- Models `hid_report_bytes(cursor, num_bytes)`.  `crash` models the panic
of slicing `bytes[..num_bytes]` out of the 4-byte array when
`num_bytes > 4`; `ok none` models the `read_exact` EOF error (after which
the cursor sits at end-of-input, handled at the call site); `ok (some (v,
p))` is the little-endian value together with the advanced position. -/
def hid_report_bytes (data : List Nat) (pos num_bytes : Nat) : RunResult (Option (Nat × Nat)) :=
  if 4 < num_bytes then .crash
  else if num_bytes ≤ data.length - pos then
    .ok (some (le_bytes ((data.drop pos).take num_bytes), pos + num_bytes))
  else .ok none

/-- The return performed when the `while` loop of `next_hid_usage` ends
(end-of-input or a failed `hid_report_bytes`): if the cursor was at position
0 on entry (`initial`) and a usage is pending, emit `(usage_page, usage)`
with the cursor left at `pos`; otherwise the scan yields nothing. -/
def end_of_scan (usage_page : Nat) (usage : Option Nat) (initial : Bool) (pos : Nat) :
    Option ((Nat × Nat) × Nat) :=
  match initial, usage with
  | true, some u => some ((usage_page, u), pos)
  | _, _ => none

/-- Models `next_hid_usage(cursor, usage_page)` from
`src/backend/hidraw/descriptor.rs`.  One fuel unit per `while` iteration;
`usage`, `usage_page` and `initial` are the local state of the Rust
function, threaded through the loop.  Returns `ok (some ((usage_page,
usage), pos))` when a pair is emitted with the cursor at `pos`, `ok none`
when the iteration ends, `crash` for a Rust panic.  The `u32 as u16` casts
are `% 65536`. -/
def next_hid_usage (data : List Nat) (pos usage_page : Nat) (usage : Option Nat)
    (initial : Bool) : Nat → RunResult (Option ((Nat × Nat) × Nat))
  | 0 => .outOfFuel
  | fuel + 1 =>
    match data[pos]? with
    | none => .ok (end_of_scan usage_page usage initial pos)
    | some key =>
      match hid_item_size key data (pos + 1) with
      | none => .ok none
      | some ((data_len, key_size), p1) =>
        let key_cmd := key &&& 0xfc
        let next_pos := pos + (data_len + key_size)
        if key_cmd = 0x4 then
          match hid_report_bytes data p1 data_len with
          | .crash => .crash
          | .outOfFuel => .outOfFuel
          | .ok none => .ok (end_of_scan usage_page usage initial data.length)
          | .ok (some (v, _)) => next_hid_usage data next_pos (v % 65536) usage initial fuel
        else if key_cmd = 0x8 then
          match hid_report_bytes data p1 data_len with
          | .crash => .crash
          | .outOfFuel => .outOfFuel
          | .ok none => .ok (end_of_scan usage_page usage initial data.length)
          | .ok (some (v, _)) =>
            next_hid_usage data next_pos usage_page (some (v % 65536)) initial fuel
        else if key_cmd = 0xa0 then
          match usage with
          | some u => .ok (some ((usage_page, u), next_pos))
          | none => next_hid_usage data next_pos usage_page none initial fuel
        else if key_cmd = 0x80 ∨ key_cmd = 0x90 ∨ key_cmd = 0xb0 ∨ key_cmd = 0xc0 then
          next_hid_usage data next_pos usage_page none initial fuel
        else
          next_hid_usage data next_pos usage_page usage initial fuel

/-- Models draining `HidrawReportDescriptor::usages()` (the `UsageIterator`)
into a list, as `get_device_info_raw` does with `.collect()`.  Each
`UsageIterator::next` call invokes `next_hid_usage` with a fresh `usage =
None`, `initial = (position == 0)`, and the usage page carried over from the
previously emitted pair.  One fuel unit per `next` call; the inner fuel
`data.length + 1` is sufficient for any cursor position (see
`next_hid_usage_total`). -/
def usage_iterator_collect (data : List Nat) (pos usage_page : Nat) :
    Nat → RunResult (List (Nat × Nat))
  | 0 => .outOfFuel
  | fuel + 1 =>
    match next_hid_usage data pos usage_page none (pos == 0) (data.length + 1) with
    | .crash => .crash
    | .outOfFuel => .outOfFuel
    | .ok none => .ok []
    | .ok (some ((page, usage), p)) =>
      match usage_iterator_collect data p page fuel with
      | .crash => .crash
      | .outOfFuel => .outOfFuel
      | .ok rest => .ok ((page, usage) :: rest)

/-- The full scan of a report descriptor: all `(usage_page, usage_id)` pairs
yielded by `HidrawReportDescriptor::usages()`, starting from position 0 with
usage page 0.  The outer fuel `data.length + 2` is sufficient
(`usage_iterator_collect_total`). -/
def hidraw_usages (data : List Nat) : RunResult (List (Nat × Nat)) :=
  usage_iterator_collect data 0 0 (data.length + 2)

/-! ## String helpers (modelling `str` operations used by the Linux backend)

Rust strings are modelled as `List Char`; `strLit` lifts a Lean string
literal to that representation. -/

/-- Character list of a string literal. -/
def strLit (s : String) : List Char := s.data

/-- Models `str::split(sep)`: splits at every separator, keeping empty
chunks (including a trailing one). -/
def split_on_char (sep : Char) : List Char → List (List Char)
  | [] => [[]]
  | c :: rest =>
    match split_on_char sep rest with
    | l :: ls => if c = sep then [] :: l :: ls else (c :: l) :: ls
    | [] => [[c]]

/-- Models `str::split_once(sep)`: splits at the first separator only. -/
def split_once_char (sep : Char) : List Char → Option (List Char × List Char)
  | [] => none
  | c :: rest =>
    if c = sep then some ([], rest)
    else (split_once_char sep rest).map (fun p => (c :: p.1, p.2))

/-- Strips one trailing carriage return, as `str::lines` does per line. -/
def strip_cr (l : List Char) : List Char :=
  if l.getLast? = some '\r' then l.dropLast else l

/-- Models `str::lines`: lines are split at newlines, the final line ending
is optional, and a carriage return is stripped only when a newline follows
it — a last line lacking a newline keeps any trailing carriage return. -/
def rust_lines (s : List Char) : List (List Char) :=
  let ps := split_on_char '\n' s
  ps.dropLast.map strip_cr ++
    (match ps.getLast? with
     | some [] => []
     | some last => [last]
     | none => [])

/-- Models `str::starts_with(pat)` for a literal pattern. -/
def str_starts_with : List Char → List Char → Bool
  | _, [] => true
  | [], _ :: _ => false
  | c :: cs, p :: ps => c = p && str_starts_with cs ps

/-- Models `str::strip_prefix(pat)`: `some rest` when `pat` is an initial
segment, `none` otherwise. -/
def str_strip_head : List Char → List Char → Option (List Char)
  | s, [] => some s
  | [], _ :: _ => none
  | c :: cs, p :: ps => if c = p then str_strip_head cs ps else none

/-! ## Linux device enumeration (`src/backend/hidraw/mod.rs`) -/

/-- The `DeviceInfo` record of `src/device_info.rs`, with the Linux
`DeviceId` (a sysfs path) as the `id`. -/
structure DeviceInfo where
  id : List Char
  name : List Char
  product_id : Nat
  vendor_id : Nat
  usage_id : Nat
  usage_page : Nat
  serial_number : Option (List Char)
deriving DecidableEq, Repr

/-- Models `read_property(properties, key)`: the value of the first
`key=value` line of a uevent properties file. -/
def read_property (properties key : List Char) : Option (List Char) :=
  ((rust_lines properties).filterMap (split_once_char '=')).findSome?
    (fun p => if p.1 = key then some p.2 else none)

/-- One hexadecimal digit, as accepted by `u16::from_str_radix(s, 16)`. -/
def hex_digit_val (c : Char) : Option Nat :=
  if '0' ≤ c ∧ c ≤ '9' then some (c.toNat - 48)
  else if 'a' ≤ c ∧ c ≤ 'f' then some (c.toNat - 87)
  else if 'A' ≤ c ∧ c ≤ 'F' then some (c.toNat - 55)
  else none

/-- Models `u16::from_str_radix(s, 16).ok()`: an optional leading plus sign,
at least one hex digit, and a value that fits in 16 bits. -/
def parse_u16_hex (s : List Char) : Option Nat :=
  let digits := match s with
    | '+' :: rest => rest
    | other => other
  if digits = [] then none
  else
    match digits.mapM hex_digit_val with
    | none => none
    | some ds =>
      let v := ds.foldl (fun acc d => acc * 16 + d) 0
      if v < 65536 then some v else none

/-- Models `parse_hid_vid_pid` of `src/backend/hidraw/mod.rs`: split the
`HID_ID` value on colons, keep the pieces parsing as 16-bit hex numbers, and
take the first three as `(devtype, vendor, product)`. -/
def parse_hid_vid_pid (s : List Char) : Option (Nat × Nat × Nat) :=
  match (split_on_char ':' s).filterMap parse_u16_hex with
  | devtype :: vendor :: product :: _ => some (devtype, vendor, product)
  | _ => none

/-- Models lines 174–185 of `src/backend/hidraw/mod.rs`: the expansion of
the base `DeviceInfo` by the report descriptor.  `descriptor = none` models
`HidrawReportDescriptor::from_syspath` failing (descriptor unreadable), in
which case `unwrap_or_else` yields the single base record; a readable
descriptor is expanded into one record per scanned pair. -/
def expand_device_infos (info : DeviceInfo) (descriptor : Option (List Nat)) :
    RunResult (List DeviceInfo) :=
  match descriptor with
  | none => .ok [info]
  | some bytes =>
    match hidraw_usages bytes with
    | .crash => .crash
    | .outOfFuel => .outOfFuel
    | .ok pairs =>
      .ok (pairs.map (fun p => { info with usage_page := p.1, usage_id := p.2 }))

/-- Models `get_device_info_raw(path)`.  The filesystem reads are made
explicit: `properties` is the content of the readable `device/uevent` file
and `descriptor` is the content of `device/report_descriptor` (`none` when
that file cannot be read).  Both `enumerate` and `query_info` of the Linux
backend produce their `DeviceInfo` lists through this function. -/
def get_device_info_raw (path properties : List Char) (descriptor : Option (List Nat)) :
    RunResult (Except HidError (List DeviceInfo)) :=
  match (read_property properties (strLit "HID_ID")).bind parse_hid_vid_pid with
  | none => .ok (.error (.Message "Can\x27t find hid ids"))
  | some (_bus, vendor_id, product_id) =>
    match read_property properties (strLit "HID_NAME") with
    | none => .ok (.error (.Message "Can\x27t find hid name"))
    | some name =>
      let serial_number := (read_property properties (strLit "HID_UNIQ")).filter
        (fun s => !s.isEmpty)
      let info : DeviceInfo :=
        { id := path, name := name, product_id := product_id, vendor_id := vendor_id,
          usage_id := 0, usage_page := 0, serial_number := serial_number }
      match expand_device_infos info descriptor with
      | .crash => .crash
      | .outOfFuel => .outOfFuel
      | .ok infos => .ok (.ok infos)

/-! ## Device-path normalization in `HidRawBackend::open` -/

/-- The literal `/dev/` prefix tested by `mange_dev_name`. -/
def devDirChars : List Char := strLit "/dev/"

/-- Models `Path::is_absolute` on Unix: the path has a root. -/
def path_is_absolute (s : List Char) : Bool :=
  match s with
  | '/' :: _ => true
  | _ => false

/-- Models `mange_dev_name(dev_name)` of `src/backend/hidraw/mod.rs`: an
absolute name must strip to a non-empty remainder after `/dev/`, otherwise
the function returns the `Message` error; a relative name is joined onto
`/dev/` (string concatenation, since the base ends with the separator). -/
def mange_dev_name (dev_name : List Char) : Except HidError (List Char) :=
  if path_is_absolute dev_name then
    if (str_strip_head dev_name devDirChars).elim false (fun z => !z.isEmpty) then
      .ok dev_name
    else .error (.Message "Absolute device paths must start with /dev/")
  else .ok (devDirChars ++ dev_name)

/-- Models the prologue of `HidRawBackend::open` (lines 116–124): resolve
`DEVNAME` from the uevent properties and normalize it with
`mange_dev_name`.  An `ok` result is the path subsequently passed to
`OpenOptions::open`; an `error` result means `open` returns before any file
is opened. -/
def hidraw_open_dev_path (properties : List Char) : Except HidError (List Char) :=
  match read_property properties (strLit "DEVNAME") with
  | none => .error (.Message "Can\x27t find dev name")
  | some n => mange_dev_name n

/-! ## uevent parser (`src/backend/hidraw/uevent.rs`)

Netlink payloads are byte lists; `parse_internal` works at byte level,
which agrees with the Rust `str` processing because the split bytes (NUL and
the equals sign) never occur inside a multi-byte UTF-8 sequence. -/

/-- The `Action` enum of `uevent.rs` (`Other` keeps the raw value bytes). -/
inductive ActionM where
  | Add
  | Remove
  | Other (value : List Nat)
deriving DecidableEq, Repr

/-- The `UEvent` record: action, subsystem, and device path (the `Path` is
kept as its byte string). -/
structure UEventM where
  action : ActionM
  subsystem : List Nat
  dev_path : List Nat
deriving DecidableEq, Repr

/-- Is a continuation byte (`0x80..0xBF`)? -/
def utf8_cont (b : Nat) : Bool := 0x80 ≤ b && b < 0xC0

/-- Models `std::str::from_utf8` validity: standard UTF-8 with the usual
overlong/surrogate/range restrictions (lead bytes `C2..DF`, `E0..EF` with
`E0 → A0..BF` and `ED → 80..9F`, `F0..F4` with `F0 → 90..BF` and
`F4 → 80..8F`). -/
def utf8_valid : List Nat → Bool
  | [] => true
  | b :: rest =>
    if b < 0x80 then utf8_valid rest
    else if b < 0xC2 then false
    else if b < 0xE0 then
      match rest with
      | c1 :: r => utf8_cont c1 && utf8_valid r
      | [] => false
    else if b < 0xF0 then
      match rest with
      | c1 :: c2 :: r =>
        (if b = 0xE0 then 0xA0 ≤ c1 && c1 < 0xC0
         else if b = 0xED then 0x80 ≤ c1 && c1 < 0xA0
         else utf8_cont c1) && utf8_cont c2 && utf8_valid r
      | _ => false
    else if b < 0xF5 then
      match rest with
      | c1 :: c2 :: c3 :: r =>
        (if b = 0xF0 then 0x90 ≤ c1 && c1 < 0xC0
         else if b = 0xF4 then 0x80 ≤ c1 && c1 < 0x90
         else utf8_cont c1) && utf8_cont c2 && utf8_cont c3 && utf8_valid r
      | _ => false
    else false

/-- Models `str::split('\0')` at byte level. -/
def split_on_byte (sep : Nat) : List Nat → List (List Nat)
  | [] => [[]]
  | b :: rest =>
    match split_on_byte sep rest with
    | l :: ls => if b = sep then [] :: l :: ls else (b :: l) :: ls
    | [] => [[b]]

/-- Models `str::split_once('=')` at byte level. -/
def split_once_byte (sep : Nat) : List Nat → Option (List Nat × List Nat)
  | [] => none
  | b :: rest =>
    if b = sep then some ([], rest)
    else (split_once_byte sep rest).map (fun p => (b :: p.1, p.2))

/-- Byte list of an ASCII string literal. -/
def asciiBytes (s : String) : List Nat := s.data.map Char.toNat

/-- Models the `ACTION` value match of `parse_internal`. -/
def parse_action (value : List Nat) : ActionM :=
  if value = asciiBytes "add" then .Add
  else if value = asciiBytes "remove" then .Remove
  else .Other value

/-- Models `UEvent::parse_internal(event)`: validate UTF-8, split on NUL
into `KEY=VALUE` lines, keep the last `ACTION`, `SUBSYSTEM` and `DEVPATH`
values, and fail with the corresponding message when one is missing. -/
def uevent_parse_internal (event : List Nat) : Except String UEventM :=
  if utf8_valid event then
    let fields := (split_on_byte 0 event).foldl
      (fun (acc : Option ActionM × Option (List Nat) × Option (List Nat)) line =>
        match split_once_byte 61 line with
        | some (key, value) =>
          if key = asciiBytes "ACTION" then (some (parse_action value), acc.2.1, acc.2.2)
          else if key = asciiBytes "SUBSYSTEM" then (acc.1, some value, acc.2.2)
          else if key = asciiBytes "DEVPATH" then (acc.1, acc.2.1, some value)
          else acc
        | none => acc)
      (none, none, none)
    match fields with
    | (some a, some s, some d) => .ok { action := a, subsystem := s, dev_path := d }
    | (none, _, _) => .error "Event action not found"
    | (_, none, _) => .error "Event subsystem not found"
    | (_, _, none) => .error "Event device path not found"
  else .error "Invalid utf-8"

/-- Big-endian value of a byte list (`u32::from_be_bytes`). -/
def be_bytes (l : List Nat) : Nat := l.foldl (fun acc b => acc * 256 + b) 0

/-- Models `UEvent::parse(event)`.  The first `ensure!` rejects any message
shorter than 32 bytes.  A `libudev`-framed message checks the big-endian
magic and jumps to the native-endian (little-endian on all supported
targets) payload offset at bytes 16..20 — slicing `&event[offset..]` with an
offset beyond the buffer is a Rust panic, modelled as `crash`.  A
kernel-framed message must contain `@` (byte 64) and skips past the first
NUL. -/
def uevent_parse (event : List Nat) : RunResult (Except String UEventM) :=
  if event.length < 32 then .ok (.error "Message is too short")
  else if event.take 8 = asciiBytes "libudev" ++ [0] then
    let magic := be_bytes ((event.drop 8).take 4)
    if magic = 0xfeedcafe then
      let offset := le_bytes ((event.drop 16).take 4)
      if offset ≤ event.length then .ok (uevent_parse_internal (event.drop offset))
      else .crash
    else .ok (.error "Invalid magic number")
  else if event.contains 64 then
    match event.findIdx? (fun b => b = 0) with
    | some i => .ok (uevent_parse_internal (event.drop (i + 1)))
    | none => .ok (.error "Failed to find the start of the message")
  else .ok (.error "Invalid kernel event")

/-! ## Windows overlapped read completion (`src/backend/win32/buffer.rs`) -/

/-- Models the completion branch of `IoBuffer::<Readable>::read` (the
`Some(size)` arm, lines 127–144): `buffer` is the owned buffer, `size` the
byte count reported by `GetOverlappedResult`, `out` the caller's buffer.
`&self.buffer[..size]` panics when `size` exceeds the buffer, and `data[0]`
panics when the delivered payload is empty — both are `crash`.  Otherwise a
leading zero report-ID byte is stripped, `copy_len` bytes are copied into
`out`, the pending flag is cleared (the returned `Bool`), and `copy_len` is
returned. -/
def io_buffer_read_complete (buffer : List Nat) (size : Nat) (out : List Nat) :
    RunResult (Nat × List Nat × Bool) :=
  if size ≤ buffer.length then
    match buffer.take size with
    | [] => .crash
    | b :: rest =>
      let data := if b = 0 then rest else b :: rest
      let copy_len := if data.length > out.length then out.length else data.length
      .ok (copy_len, data.take copy_len ++ out.drop copy_len, false)
  else .crash

/-! ## macOS report writes (`src/backend/iohidmanager/read_writer.rs`) -/

/-- The `IOHIDReportType` values used by `write_report`. -/
inductive IOHIDReportTypeM where
  | output
  | feature
deriving DecidableEq, Repr

/-- The arguments handed to `IOHIDDeviceSetReport`. -/
structure SetReportCall where
  report_type : IOHIDReportTypeM
  report_id : Nat
  data : List Nat
deriving DecidableEq, Repr

/-- `kIOReturnSuccess`. -/
def kIOReturnSuccessV : Nat := 0

/-- `kIOReturnBadArgument` (`0xE00002C2`). -/
def kIOReturnBadArgumentV : Nat := 0xE00002C2

/-- Models `DeviceReadWriter::write_report(report_type, buf)`.  `writable`
is whether `write_state` is present (`expect` panics otherwise, `crash`);
`buf[0]` on an empty buffer is likewise a panic.  The report ID is `buf[0]`;
when it is zero the first byte is stripped from the data handed to
`IOHIDDeviceSetReport`.  `set_report_result` is the `IOReturn` produced by
the OS call; the returned pair is the call made and the mapped result. -/
def write_report (writable : Bool) (report_type : IOHIDReportTypeM) (buf : List Nat)
    (set_report_result : Nat) : RunResult (SetReportCall × Except HidError Unit) :=
  if writable then
    match buf with
    | [] => .crash
    | report_id :: rest =>
      let data_to_send := if report_id = 0 then rest else report_id :: rest
      let call : SetReportCall :=
        { report_type := report_type, report_id := report_id, data := data_to_send }
      if set_report_result = kIOReturnSuccessV then .ok (call, .ok ())
      else if set_report_result = kIOReturnBadArgumentV then .ok (call, .error .Disconnected)
      else .ok (call, .error (.Message "failed to set report type"))
  else .crash

/-- `AsyncHidWrite::write_output_report` for the macOS backend forwards to
`write_report` with `IOHIDReportType::Output`. -/
def write_output_report (writable : Bool) (buf : List Nat) (set_report_result : Nat) :
    RunResult (SetReportCall × Except HidError Unit) :=
  write_report writable .output buf set_report_result

/-- `AsyncHidFeatureHandle::write_feature_report` for the macOS backend
forwards to `write_report` with `IOHIDReportType::Feature`. -/
def write_feature_report (writable : Bool) (buf : List Nat) (set_report_result : Nat) :
    RunResult (SetReportCall × Except HidError Unit) :=
  write_report writable .feature buf set_report_result

/-! ## Watch-event fan-out (`src/backend/iohidmanager/mod.rs`)

`AsyncQueue` wraps a `crossbeam_queue::ArrayQueue` plus a waker.  The
`ArrayQueue` is an external dependency used through its stated contract:
`force_push` pushes the element, popping and discarding the oldest one first
when the queue is full, and always completes (it never blocks).  `items`
lists the queued elements oldest first. -/

/-- The `DeviceEvent` enum with the macOS `DeviceId` (a registry entry id). -/
inductive DeviceEventM where
  | Connected (id : Nat)
  | Disconnected (id : Nat)
deriving DecidableEq, Repr

/-- Functional model of `AsyncQueue` (bounded `ArrayQueue` state). -/
structure AsyncQueue (α : Type) where
  cap : Nat
  items : List α
deriving DecidableEq, Repr

/-- `AsyncQueue::new(cap)`: an empty queue of the given capacity. -/
def AsyncQueue.new (α : Type) (cap : Nat) : AsyncQueue α := { cap := cap, items := [] }

/-- `AsyncQueue::force_push(item)`: appends the item, evicting the oldest
queued element first when the queue is at capacity.  Total — the push always
completes (and then wakes the subscriber). -/
def AsyncQueue.force_push {α : Type} (q : AsyncQueue α) (item : α) : AsyncQueue α :=
  if q.items.length < q.cap then { q with items := q.items ++ [item] }
  else { q with items := q.items.tail ++ [item] }

/-- The watcher registry of `ManagerCallbackContext`: the id counter and the
list of `(id, queue)` subscriber entries. -/
structure ManagerCallbackContext where
  next_id : Nat
  watchers : List (Nat × AsyncQueue DeviceEventM)
deriving DecidableEq, Repr

/-- Models `ManagerCallbackContext::register_watcher`: allocates the next
id, creates an `AsyncQueue::new(64)`, and appends the pair to the watcher
list.  Returns the `(id, queue)` pair and the updated context. -/
def register_watcher (ctx : ManagerCallbackContext) :
    (Nat × AsyncQueue DeviceEventM) × ManagerCallbackContext :=
  let id := ctx.next_id
  let queue := AsyncQueue.new DeviceEventM 64
  ((id, queue),
   { next_id := id + 1, watchers := ctx.watchers ++ [(id, queue)] })

/-- Models `ManagerCallbackContext::notify_watchers(event)`: force-push the
event onto every registered subscriber queue. -/
def notify_watchers (ctx : ManagerCallbackContext) (event : DeviceEventM) :
    ManagerCallbackContext :=
  { ctx with watchers := ctx.watchers.map (fun p => (p.1, p.2.force_push event)) }

set_option maxRecDepth 8192

/-- Every successful `hid_item_size` reports a key size of at least one
byte (1 for short items, 3 for long items). -/
theorem hid_item_size_key_size {key : Nat} {data : List Nat} {pos : Nat}
    {d ks p : Nat} (h : hid_item_size key data pos = some ((d, ks), p)) : 1 ≤ ks := by
  unfold hid_item_size at h
  split at h
  · split at h
    · simp only [Option.some.injEq, Prod.mk.injEq] at h
      omega
    · exact absurd h (by simp)
  · split at h <;> simp only [Option.some.injEq, Prod.mk.injEq] at h <;> omega

/-- Bit-level fact about item tags: a byte whose `0xfc` mask is `0x04` or
`0x08` cannot have high nibble `0xf0` (it is a short item). -/
theorem byte_cmd_short : ∀ k < 256, (k &&& 0xfc = 0x4 ∨ k &&& 0xfc = 0x8) →
    ¬(k &&& 0xf0 = 0xf0) := by decide

/-- A byte whose bottom item tag is Usage Page (`0x04`) or Usage (`0x08`)
is a short item, so its data length is at most 4 bytes. -/
theorem hid_item_size_data_len {key : Nat} {data : List Nat} {pos : Nat}
    {d ks p : Nat} (hk : key < 256) (hcmd : key &&& 0xfc = 0x4 ∨ key &&& 0xfc = 0x8)
    (h : hid_item_size key data pos = some ((d, ks), p)) : d ≤ 4 := by
  have hshort : ¬(key &&& 0xf0 = 0xf0) := byte_cmd_short key hk hcmd
  unfold hid_item_size at h
  rw [if_neg hshort] at h
  split at h <;> simp only [Option.some.injEq, Prod.mk.injEq] at h <;> omega

/-- `hid_report_bytes` never runs out of fuel (it contains no loop). -/
theorem hid_report_bytes_ne_outOfFuel (data : List Nat) (pos num_bytes : Nat) :
    hid_report_bytes data pos num_bytes ≠ .outOfFuel := by
  unfold hid_report_bytes
  split <;> [skip; split] <;> simp

/-- `hid_report_bytes` panics exactly when asked for more than 4 bytes. -/
theorem hid_report_bytes_crash_iff (data : List Nat) (pos num_bytes : Nat) :
    hid_report_bytes data pos num_bytes = .crash ↔ 4 < num_bytes := by
  unfold hid_report_bytes
  split <;> [simp_all; split <;> simp_all]

/-- Totality of the scanner loop: on a list of byte values, a fuel larger
than the number of bytes after the cursor suffices for `next_hid_usage` to
return a value — it neither panics nor runs out of fuel. -/
theorem next_hid_usage_total (data : List Nat) (hbytes : ∀ b ∈ data, b < 256) :
    ∀ (fuel pos usage_page : Nat) (usage : Option Nat) (initial : Bool),
      data.length - pos < fuel →
      ∃ r, next_hid_usage data pos usage_page usage initial fuel = .ok r := by
  intro fuel
  induction fuel with
  | zero => intro pos page usage initial h; omega
  | succ f ih =>
    intro pos page usage initial h
    rw [next_hid_usage]
    cases hkey : data[pos]? with
    | none => exact ⟨_, rfl⟩
    | some key =>
      have hklt : key < 256 := hbytes _ (List.getElem?_mem hkey)
      have hposlt : pos < data.length := (List.getElem?_eq_some.mp hkey).1
      dsimp only
      cases hitem : hid_item_size key data (pos + 1) with
      | none => exact ⟨_, rfl⟩
      | some r =>
        obtain ⟨⟨data_len, key_size⟩, p1⟩ := r
        have hks : 1 ≤ key_size := hid_item_size_key_size hitem
        dsimp only
        by_cases h4 : key &&& 0xfc = 0x4
        · rw [if_pos h4]
          have hd4 : data_len ≤ 4 := hid_item_size_data_len hklt (Or.inl h4) hitem
          cases hrb : hid_report_bytes data p1 data_len with
          | crash => exact absurd ((hid_report_bytes_crash_iff _ _ _).mp hrb) (by omega)
          | outOfFuel => exact absurd hrb (hid_report_bytes_ne_outOfFuel _ _ _)
          | ok o =>
            cases o with
            | none => exact ⟨_, rfl⟩
            | some vp => exact ih _ _ _ _ (by omega)
        · rw [if_neg h4]
          by_cases h8 : key &&& 0xfc = 0x8
          · rw [if_pos h8]
            have hd4 : data_len ≤ 4 := hid_item_size_data_len hklt (Or.inr h8) hitem
            cases hrb : hid_report_bytes data p1 data_len with
            | crash => exact absurd ((hid_report_bytes_crash_iff _ _ _).mp hrb) (by omega)
            | outOfFuel => exact absurd hrb (hid_report_bytes_ne_outOfFuel _ _ _)
            | ok o =>
              cases o with
              | none => exact ⟨_, rfl⟩
              | some vp => exact ih _ _ _ _ (by omega)
          · rw [if_neg h8]
            by_cases ha : key &&& 0xfc = 0xa0
            · rw [if_pos ha]
              cases usage with
              | some u => exact ⟨_, rfl⟩
              | none => exact ih _ _ _ _ (by omega)
            · rw [if_neg ha]
              by_cases hm : key &&& 0xfc = 0x80 ∨ key &&& 0xfc = 0x90 ∨
                  key &&& 0xfc = 0xb0 ∨ key &&& 0xfc = 0xc0
              · rw [if_pos hm]
                exact ih _ _ _ _ (by omega)
              · rw [if_neg hm]
                exact ih _ _ _ _ (by omega)

/-- Cursor-advance property of the scanner loop: a call that emits a pair
leaves the cursor no earlier than where it started; when no usage was
pending on entry (as in every call made by the usage iterator) the entry
position is inside the input and the cursor advances strictly. -/
theorem next_hid_usage_advance (data : List Nat) :
    ∀ (fuel pos usage_page : Nat) (usage : Option Nat) (initial : Bool)
      (pr : Nat × Nat) (p : Nat),
      next_hid_usage data pos usage_page usage initial fuel = .ok (some (pr, p)) →
      pos ≤ p ∧ (usage = none → pos < data.length ∧ pos + 1 ≤ p) := by
  intro fuel
  induction fuel with
  | zero =>
    intro pos page usage initial pr p h
    exact absurd h (by rw [next_hid_usage]; simp)
  | succ f ih =>
    intro pos page usage initial pr p h
    rw [next_hid_usage] at h
    cases hkey : data[pos]? with
    | none =>
      rw [hkey] at h
      dsimp only at h
      unfold end_of_scan at h
      cases initial <;> cases usage <;> simp_all
    | some key =>
      have hposlt : pos < data.length := (List.getElem?_eq_some.mp hkey).1
      rw [hkey] at h
      dsimp only at h
      cases hitem : hid_item_size key data (pos + 1) with
      | none => rw [hitem] at h; exact absurd h (by simp)
      | some r =>
        obtain ⟨⟨data_len, key_size⟩, p1⟩ := r
        have hks : 1 ≤ key_size := hid_item_size_key_size hitem
        rw [hitem] at h
        dsimp only at h
        by_cases h4 : key &&& 0xfc = 0x4
        · rw [if_pos h4] at h
          cases hrb : hid_report_bytes data p1 data_len with
          | crash => rw [hrb] at h; exact absurd h (by simp)
          | outOfFuel => rw [hrb] at h; exact absurd h (by simp)
          | ok o =>
            rw [hrb] at h
            cases o with
            | none =>
              dsimp only at h
              unfold end_of_scan at h
              cases initial <;> cases usage <;> (simp_all; try omega)
            | some vp =>
              obtain ⟨v, p2⟩ := vp
              have := ih _ _ _ _ _ _ h
              refine ⟨by omega, fun hu => ⟨hposlt, by omega⟩⟩
        · rw [if_neg h4] at h
          by_cases h8 : key &&& 0xfc = 0x8
          · rw [if_pos h8] at h
            cases hrb : hid_report_bytes data p1 data_len with
            | crash => rw [hrb] at h; exact absurd h (by simp)
            | outOfFuel => rw [hrb] at h; exact absurd h (by simp)
            | ok o =>
              rw [hrb] at h
              cases o with
              | none =>
                dsimp only at h
                unfold end_of_scan at h
                cases initial <;> cases usage <;> (simp_all; try omega)
              | some vp =>
                obtain ⟨v, p2⟩ := vp
                have := ih _ _ _ _ _ _ h
                refine ⟨by omega, fun hu => ⟨hposlt, by omega⟩⟩
          · rw [if_neg h8] at h
            by_cases ha : key &&& 0xfc = 0xa0
            · rw [if_pos ha] at h
              cases usage with
              | some u =>
                simp only [RunResult.ok.injEq, Option.some.injEq, Prod.mk.injEq] at h
                refine ⟨by omega, fun hu => by simp at hu⟩
              | none =>
                have := ih _ _ _ _ _ _ h
                refine ⟨by omega, fun hu => ⟨hposlt, by omega⟩⟩
            · rw [if_neg ha] at h
              by_cases hm : key &&& 0xfc = 0x80 ∨ key &&& 0xfc = 0x90 ∨
                  key &&& 0xfc = 0xb0 ∨ key &&& 0xfc = 0xc0
              · rw [if_pos hm] at h
                have := ih _ _ _ _ _ _ h
                refine ⟨by omega, fun hu => ⟨hposlt, by omega⟩⟩
              · rw [if_neg hm] at h
                have := ih _ _ _ _ _ _ h
                refine ⟨by omega, fun hu => ⟨hposlt, by omega⟩⟩

/-- Totality of the usage iterator: with fuel exceeding the number of bytes
after the starting position, collecting the scanned pairs neither panics nor
runs out of fuel. -/
theorem usage_iterator_collect_total (data : List Nat) (hbytes : ∀ b ∈ data, b < 256) :
    ∀ (fuel pos usage_page : Nat), data.length - pos < fuel →
      ∃ l, usage_iterator_collect data pos usage_page fuel = .ok l := by
  intro fuel
  induction fuel with
  | zero => intro pos page h; omega
  | succ f ih =>
    intro pos page h
    rw [usage_iterator_collect]
    obtain ⟨r, hr⟩ :=
      next_hid_usage_total data hbytes (data.length + 1) pos page none (pos == 0) (by omega)
    rw [hr]
    cases r with
    | none => exact ⟨_, rfl⟩
    | some rp =>
      obtain ⟨⟨pg, u⟩, p⟩ := rp
      have hadv := (next_hid_usage_advance data _ pos page none (pos == 0) (pg, u) p hr).2 rfl
      obtain ⟨l, hl⟩ := ih p pg (by omega)
      dsimp only
      rw [hl]
      exact ⟨_, rfl⟩

/-- Totality of the full scan: on any byte sequence the scanner returns a
list of pairs — it never panics, and the fuel `data.length + 2` suffices. -/
theorem hidraw_usages_total (data : List Nat) (hbytes : ∀ b ∈ data, b < 256) :
    ∃ l, hidraw_usages data = .ok l :=
  usage_iterator_collect_total data hbytes (data.length + 2) 0 0 (by omega)

/-- Every successful run of `get_device_info_raw` expands a base record
whose usage page and usage id are zero through `expand_device_infos`. -/
theorem get_device_info_raw_shape (path props : List Char) (descriptor : Option (List Nat))
    (l : List DeviceInfo)
    (hg : get_device_info_raw path props descriptor = .ok (.ok l)) :
    ∃ info : DeviceInfo, info.usage_page = 0 ∧ info.usage_id = 0 ∧
      expand_device_infos info descriptor = .ok l := by
  unfold get_device_info_raw at hg
  cases hid : (read_property props (strLit "HID_ID")).bind parse_hid_vid_pid with
  | none => rw [hid] at hg; exact absurd hg (by simp)
  | some t =>
    obtain ⟨bus, vid, pid⟩ := t
    rw [hid] at hg
    dsimp only at hg
    cases hname : read_property props (strLit "HID_NAME") with
    | none => rw [hname] at hg; exact absurd hg (by simp)
    | some name =>
      rw [hname] at hg
      dsimp only at hg
      refine ⟨{ id := path, name := name, product_id := pid, vendor_id := vid,
                usage_id := 0, usage_page := 0,
                serial_number := (read_property props (strLit "HID_UNIQ")).filter
                  (fun s => !s.isEmpty) }, rfl, rfl, ?_⟩
      cases hexp : expand_device_infos
          { id := path, name := name, product_id := pid, vendor_id := vid,
            usage_id := 0, usage_page := 0,
            serial_number := (read_property props (strLit "HID_UNIQ")).filter
              (fun s => !s.isEmpty) } descriptor with
      | crash => rw [hexp] at hg; exact absurd hg (by simp)
      | outOfFuel => rw [hexp] at hg; exact absurd hg (by simp)
      | ok infos =>
        rw [hexp] at hg
        simp only [RunResult.ok.injEq, Except.ok.injEq] at hg
        rw [hg]

/-- Sysfs path of the example device used in concrete instances. -/
def hidraw0_path : List Char := strLit "/sys/class/hidraw/hidraw0"

/-- A readable `device/uevent` content for the example device. -/
def hidraw0_props : List Char := strLit "HID_ID=0003:046D:C52B\nHID_NAME=Gadget"

/-- A report descriptor consisting of two identical top-level collections
(`05 01 09 06 A1 01 C0` twice: Usage Page 1, Usage 6, Collection, End). -/
def dup_descriptor : List Nat :=
  [0x05, 0x01, 0x09, 0x06, 0xA1, 0x01, 0xC0, 0x05, 0x01, 0x09, 0x06, 0xA1, 0x01, 0xC0]

/-- The `DeviceInfo` the example device yields for the pair `(1, 6)`. -/
def gadget_info : DeviceInfo :=
  { id := hidraw0_path, name := strLit "Gadget", product_id := 0xC52B, vendor_id := 0x046D,
    usage_id := 6, usage_page := 1, serial_number := none }

/-- The base `DeviceInfo` of the example device (usage fields zero). -/
def gadget_base_info : DeviceInfo :=
  { id := hidraw0_path, name := strLit "Gadget", product_id := 0xC52B, vendor_id := 0x046D,
    usage_id := 0, usage_page := 0, serial_number := none }

/-- C1 counterexample: a hidraw device whose sysfs entry is readable and
whose report descriptor is readable but parses to no pairs (here the empty
descriptor) yields an empty `DeviceInfo` list — not the single default
`(0, 0)` record the claim demands. -/
theorem c1_counterexample :
    get_device_info_raw hidraw0_path hidraw0_props (some []) = .ok (.ok []) ∧
    ([] : List DeviceInfo).length ≠ 1 :=
  ⟨rfl, by decide⟩

/-- C1 (amended): the single default `(0, 0)` fallback applies exactly when
the report descriptor is unreadable: an unreadable descriptor yields one
`DeviceInfo` whose usage page and usage id are zero, while a readable
descriptor whose parse yields no pairs yields an empty list. -/
theorem c1_amended (path props : List Char) (bytes : List Nat) (info : DeviceInfo)
    (l : List DeviceInfo) :
    (get_device_info_raw path props none = .ok (.ok [info]) →
      info.usage_page = 0 ∧ info.usage_id = 0) ∧
    (hidraw_usages bytes = .ok [] →
      get_device_info_raw path props (some bytes) = .ok (.ok l) → l = []) := by
  constructor
  · intro hg
    obtain ⟨base, hup, hui, hexp⟩ := get_device_info_raw_shape path props none [info] hg
    unfold expand_device_infos at hexp
    simp only [RunResult.ok.injEq, List.cons.injEq] at hexp
    rw [← hexp.1]
    exact ⟨hup, hui⟩
  · intro hu hg
    obtain ⟨base, hup, hui, hexp⟩ := get_device_info_raw_shape path props (some bytes) l hg
    unfold expand_device_infos at hexp
    dsimp only at hexp
    rw [hu] at hexp
    simp only [List.map_nil, RunResult.ok.injEq] at hexp
    exact hexp.symm

/-- Witness for C1 (amended) at the example device: the unreadable case
produces the zero-usage base record and the readable-empty case produces the
empty list. -/
theorem c1_amended_witness :
    gadget_base_info.usage_page = 0 ∧ gadget_base_info.usage_id = 0 ∧
    (([] : List DeviceInfo) = []) := by
  have h := c1_amended hidraw0_path hidraw0_props [] gadget_base_info []
  have h1 := h.1 rfl
  exact ⟨h1.1, h1.2, h.2 (by decide) rfl⟩

/-- C2 counterexample: for the device id `hidraw0_path`, the descriptor with
two identical top-level collections makes `get_device_info_raw` (hence
`enumerate` and `query_devices`) return two `DeviceInfo` entries carrying
the same `(usage_page, usage_id) = (1, 6)` pair, so the pair does not
uniquely key the list. -/
theorem c2_counterexample :
    get_device_info_raw hidraw0_path hidraw0_props (some dup_descriptor) =
      .ok (.ok [gadget_info, gadget_info]) ∧
    ¬ List.Pairwise
        (fun a b : DeviceInfo => (a.usage_page, a.usage_id) ≠ (b.usage_page, b.usage_id))
        [gadget_info, gadget_info] :=
  ⟨rfl, by decide⟩

/-- C2 (amended): for every report descriptor, the `DeviceInfo` list
produced for a single `DeviceId` carries exactly the scanner's emitted
`(usage_page, usage_id)` pairs, one entry per pair in emission order;
duplicate pairs (e.g. two identical top-level collections) therefore yield
duplicate entries, and the pair does not uniquely key the list. -/
theorem c2_amended (path props : List Char) (bytes : List Nat)
    (pairs : List (Nat × Nat)) (l : List DeviceInfo)
    (hu : hidraw_usages bytes = .ok pairs)
    (hg : get_device_info_raw path props (some bytes) = .ok (.ok l)) :
    l.map (fun d => (d.usage_page, d.usage_id)) = pairs := by
  obtain ⟨base, hup, hui, hexp⟩ := get_device_info_raw_shape path props (some bytes) l hg
  unfold expand_device_infos at hexp
  dsimp only at hexp
  rw [hu] at hexp
  simp only [RunResult.ok.injEq] at hexp
  rw [← hexp]
  simp [List.map_map, Function.comp_def]

/-- Witness for C2 (amended) at the duplicate-collection descriptor: the
two produced entries carry the pairs `[(1, 6), (1, 6)]`. -/
theorem c2_amended_witness :
    [gadget_info, gadget_info].map (fun d => (d.usage_page, d.usage_id)) = [(1, 6), (1, 6)] :=
  c2_amended hidraw0_path hidraw0_props dup_descriptor [(1, 6), (1, 6)]
    [gadget_info, gadget_info] (by decide) rfl

/-- C7: iterating the report-descriptor scanner over exactly the bytes
`05 01 09 06 A1 01 C0` (Usage Page 1, Usage 6, Collection, End Collection)
yields exactly the single pair `(1, 6)` and nothing else. -/
theorem c7_single_collection :
    hidraw_usages [0x05, 0x01, 0x09, 0x06, 0xA1, 0x01, 0xC0] = .ok [(1, 6)] := by
  decide

/-- Truncating a copy length to the output capacity equals the minimum. -/
theorem trunc_min (a b : Nat) : (if a > b then b else a) = min a b := by
  split <;> omega

/-- C3 counterexample: a completed overlapped read that delivered a payload
of 0 bytes makes `IoBuffer::<Readable>::read` panic on `data[0]` (an index
into the empty payload slice) instead of copying 0 bytes and returning 0 as
the claim demands. -/
theorem c3_counterexample :
    io_buffer_read_complete [0x11, 0x22] 0 [9, 9, 9] = .crash ∧
    RunResult.crash ≠ (.ok (0, ([9, 9, 9] : List Nat), false) : RunResult (Nat × List Nat × Bool)) :=
  ⟨rfl, by decide⟩

/-- C3 (amended): for every completed overlapped read delivering a payload
of at least one byte (and at most the owned buffer's size): if the first
payload byte is `0x00` it is stripped, then `min` of the remaining payload
length and the output capacity bytes are copied into the caller's buffer,
the pending flag is cleared, and that copied count is returned.  A 0-byte
payload instead panics (see the counterexample). -/
theorem c3_amended (buffer out : List Nat) (size : Nat)
    (h1 : 1 ≤ size) (h2 : size ≤ buffer.length) :
    io_buffer_read_complete buffer size out =
      (let payload := buffer.take size
       let data := if payload.head? = some 0 then payload.tail else payload
       let n := min data.length out.length
       .ok (n, data.take n ++ out.drop n, false)) := by
  unfold io_buffer_read_complete
  rw [if_pos h2]
  cases hp : buffer.take size with
  | nil =>
    exfalso
    have : (buffer.take size).length = size := by
      rw [List.length_take]
      omega
    rw [hp] at this
    simp at this
    omega
  | cons b rest =>
    simp only [List.head?_cons, Option.some.injEq, List.tail_cons]
    by_cases hb : b = 0
    · subst hb
      simp [trunc_min]
    · simp [hb, trunc_min]

/-- Witness for C3 (amended): payload `[0, 5, 6]` into a 4-byte output
strips the zero report-ID byte and delivers 2 bytes. -/
theorem c3_amended_witness :
    io_buffer_read_complete [0, 5, 6] 3 [9, 9, 9, 9] = .ok (2, [5, 6, 9, 9], false) :=
  (c3_amended [0, 5, 6] [9, 9, 9, 9] 3 (by decide) (by decide)).trans rfl

/-- C4: every queue created by `register_watcher` has capacity 64 and
`force_push` keeps the capacity fixed; a push into a full queue evicts the
oldest queued event while keeping the length at capacity (the functional
model is total, so the push always completes); the push always enqueues the
new event; and `notify_watchers` updates every subscriber queue with its own
`force_push` of the event, independently of the state of every other queue —
so a subscriber that never polls (a full queue) does not prevent delivery to
the other subscribers. -/
theorem c4_fanout (ctx : ManagerCallbackContext) (e : DeviceEventM)
    (q : AsyncQueue DeviceEventM) (x : DeviceEventM) :
    (register_watcher ctx).1.2.cap = 64 ∧
    (register_watcher ctx).1.2.items = [] ∧
    (q.force_push x).cap = q.cap ∧
    (q.cap = 64 → q.items.length = 64 →
      (q.force_push x).items = q.items.tail ++ [x] ∧ (q.force_push x).items.length = 64) ∧
    x ∈ (q.force_push x).items ∧
    (notify_watchers ctx e).watchers = ctx.watchers.map (fun p => (p.1, p.2.force_push e)) ∧
    (∀ p, p ∈ ctx.watchers → (p.1, p.2.force_push e) ∈ (notify_watchers ctx e).watchers) := by
  refine ⟨rfl, rfl, ?_, ?_, ?_, rfl, ?_⟩
  · unfold AsyncQueue.force_push
    split <;> rfl
  · intro hcap hlen
    unfold AsyncQueue.force_push
    rw [if_neg (by omega)]
    constructor
    · rfl
    · simp [List.length_tail, hlen]
  · unfold AsyncQueue.force_push
    split <;> simp
  · intro p hp
    unfold notify_watchers
    simp only [List.mem_map]
    exact ⟨p, hp, rfl⟩

/-- A full capacity-64 subscriber queue (64 queued events). -/
def full_queue : AsyncQueue DeviceEventM :=
  { cap := 64, items := List.replicate 64 (.Connected 1) }

/-- A context with two subscribers: one with a full queue, one fresh. -/
def two_watchers : ManagerCallbackContext :=
  { next_id := 2, watchers := [(0, full_queue), (1, AsyncQueue.new DeviceEventM 64)] }

/-- Witness for C4 at a two-subscriber context whose first queue is full:
the full queue evicts its oldest event and stays at 64, and both subscriber
queues receive the event. -/
theorem c4_fanout_witness :
    (full_queue.force_push (.Disconnected 7)).items =
      full_queue.items.tail ++ [.Disconnected 7] ∧
    (full_queue.force_push (.Disconnected 7)).items.length = 64 ∧
    (notify_watchers two_watchers (.Disconnected 7)).watchers =
      two_watchers.watchers.map (fun p => (p.1, p.2.force_push (.Disconnected 7))) ∧
    ((1 : Nat), (AsyncQueue.new DeviceEventM 64).force_push (.Disconnected 7)) ∈
      (notify_watchers two_watchers (.Disconnected 7)).watchers := by
  have h := c4_fanout two_watchers (.Disconnected 7) full_queue (.Disconnected 7)
  have hfull := h.2.2.2.1 (by decide) (by decide)
  exact ⟨hfull.1, hfull.2, h.2.2.2.2.2.1,
    h.2.2.2.2.2.2 (1, AsyncQueue.new DeviceEventM 64) (by decide)⟩

/-- C5: for every non-empty buffer, the macOS output- and feature-report
writes call `IOHIDDeviceSetReport` with report ID `buf[0]`, sending
`buf[1..]` when `buf[0]` is `0x00` and the whole of `buf` otherwise, and a
`kIOReturnBadArgument` result is returned to the caller as the
`Disconnected` error (both wrappers forward to `write_report`). -/
theorem c5_set_report (b : Nat) (rest : List Nat) (res : Nat) (rt : IOHIDReportTypeM) :
    write_report true rt (b :: rest) res =
      .ok ({ report_type := rt, report_id := b,
             data := if b = 0 then rest else b :: rest },
           if res = kIOReturnSuccessV then .ok ()
           else if res = kIOReturnBadArgumentV then .error HidError.Disconnected
           else .error (.Message "failed to set report type")) ∧
    write_report true rt (b :: rest) kIOReturnBadArgumentV =
      .ok ({ report_type := rt, report_id := b,
             data := if b = 0 then rest else b :: rest }, .error HidError.Disconnected) ∧
    write_output_report true (b :: rest) res = write_report true .output (b :: rest) res ∧
    write_feature_report true (b :: rest) res = write_report true .feature (b :: rest) res := by
  refine ⟨?_, ?_, rfl, rfl⟩
  · unfold write_report
    dsimp only
    simp only [kIOReturnSuccessV, kIOReturnBadArgumentV]
    by_cases hs : res = 0
    · simp [hs]
    · by_cases hb : res = 0xE00002C2 <;> simp [hs, hb]
  · simp [write_report, kIOReturnSuccessV, kIOReturnBadArgumentV]

/-- C6 counterexample: in the descriptor `09 06 A1`, the Collection item
`A1` declares one data byte but the input ends — a truncated item — yet the
scan emits the pair `(0, 6)` for that Collection item (its data is skipped
by the seek, not read), contradicting "terminates the iteration without
emitting a pair for that item". -/
theorem c6_counterexample :
    hidraw_usages [0x09, 0x06, 0xA1] = .ok [(0, 6)] ∧
    [(0, 6)] ≠ ([] : List (Nat × Nat)) :=
  ⟨by decide, by decide⟩

/-- C6 (amended): for every input byte sequence, iterating the scanner to
exhaustion never panics (clause 1).  For every item whose data must be read
and is truncated by end-of-input, the `while` loop ends at that item without
producing a pair from it: a long item missing its size byte ends the call
emitting nothing (clause 2), and a Usage Page or Usage item whose data bytes
are truncated ends the call with the cursor at end-of-input, returning at
most the end-of-input fallback pair formed from the usage page and pending
usage exactly as they stood before that item (clause 3).  A Collection item,
by contrast, emits the pending `(usage_page, usage)` pair irrespective of
whether its declared data bytes are present, because collection data is
skipped by the seek rather than read (clause 4).  Once the cursor is at or
past end-of-input, a further `UsageIterator::next` call yields nothing, so
the iteration terminates (clause 5).  All clauses hold for every loop state
and every positive fuel. -/
theorem c6_amended (data : List Nat) (hbytes : ∀ b ∈ data, b < 256)
    (pos usage_page data_len key_size p1 fuel key u : Nat)
    (usage : Option Nat) (initial : Bool) :
    (∃ pairs, hidraw_usages data = .ok pairs) ∧
    (data[pos]? = some key → key &&& 0xf0 = 0xf0 → data.length ≤ pos + 1 →
      next_hid_usage data pos usage_page usage initial (fuel + 1) = .ok none) ∧
    (data[pos]? = some key → (key &&& 0xfc = 0x4 ∨ key &&& 0xfc = 0x8) →
      hid_item_size key data (pos + 1) = some ((data_len, key_size), p1) →
      data.length - p1 < data_len →
      next_hid_usage data pos usage_page usage initial (fuel + 1) =
        .ok (end_of_scan usage_page usage initial data.length)) ∧
    (data[pos]? = some key → key &&& 0xfc = 0xa0 →
      hid_item_size key data (pos + 1) = some ((data_len, key_size), p1) →
      usage = some u →
      next_hid_usage data pos usage_page usage initial (fuel + 1) =
        .ok (some ((usage_page, u), pos + (data_len + key_size)))) ∧
    (data.length ≤ pos →
      usage_iterator_collect data pos usage_page (fuel + 1) = .ok []) := by
  refine ⟨hidraw_usages_total data hbytes, ?_, ?_, ?_, ?_⟩
  · intro hkey hf0 hend
    rw [next_hid_usage, hkey]
    dsimp only
    have hitem : hid_item_size key data (pos + 1) = none := by
      unfold hid_item_size
      rw [if_pos hf0, List.getElem?_eq_none hend]
    rw [hitem]
  · intro hkey hcmd hitem htrunc
    have hk256 : key < 256 := hbytes key (List.getElem?_mem hkey)
    have hd4 : data_len ≤ 4 := hid_item_size_data_len hk256 hcmd hitem
    have hrb : hid_report_bytes data p1 data_len = .ok none := by
      unfold hid_report_bytes
      rw [if_neg (by omega), if_neg (by omega)]
    rw [next_hid_usage, hkey]
    dsimp only
    rw [hitem]
    dsimp only
    rcases hcmd with h4 | h8
    · rw [if_pos h4, hrb]
    · rw [if_neg (by simp [h8]), if_pos h8, hrb]
  · intro hkey hcmd hitem husage
    subst husage
    rw [next_hid_usage, hkey]
    dsimp only
    rw [hitem]
    dsimp only
    rw [if_neg (by simp [hcmd]), if_neg (by simp [hcmd]), if_pos hcmd]
  · intro hend
    have hnext : next_hid_usage data pos usage_page none (pos == 0) (data.length + 1) =
        .ok none := by
      rw [next_hid_usage, List.getElem?_eq_none hend]
      unfold end_of_scan
      cases hp0 : (pos == 0) <;> rfl
    rw [usage_iterator_collect, hnext]

/-- Witness for C6 (amended), exercising every clause at concrete inputs:
in `09 06 05` the final Usage Page item is truncated, and the call from its
position returns only the pre-item fallback `(0, 6)` with the cursor at
end-of-input; the bare long item `F0` emits nothing; in `09 06 A1` the
truncated Collection item still emits `(0, 6)`; and from end-of-input the
iteration yields nothing further. -/
theorem c6_amended_witness :
    (∃ pairs, hidraw_usages [0x09, 0x06, 0x05] = .ok pairs) ∧
    next_hid_usage [0x09, 0x06, 0x05] 2 0 (some 6) true 1 = .ok (some ((0, 6), 3)) ∧
    next_hid_usage [0xF0] 0 0 none true 1 = .ok none ∧
    next_hid_usage [0x09, 0x06, 0xA1] 2 0 (some 6) true 1 = .ok (some ((0, 6), 4)) ∧
    usage_iterator_collect [0x09, 0x06, 0xA1] 4 0 1 = .ok [] := by
  refine ⟨(c6_amended [0x09, 0x06, 0x05] (by decide) 0 0 0 0 0 0 0 0 none true).1,
    ((c6_amended [0x09, 0x06, 0x05] (by decide) 2 0 1 1 3 0 0x05 6 (some 6) true).2.2.1
      (by decide) (Or.inl (by decide)) (by decide) (by decide)).trans rfl,
    (c6_amended [0xF0] (by decide) 0 0 0 0 0 0 0xF0 0 none true).2.1
      (by decide) (by decide) (by decide),
    (c6_amended [0x09, 0x06, 0xA1] (by decide) 2 0 1 1 3 0 0xA1 6 (some 6) true).2.2.2.1
      (by decide) (by decide) (by decide) rfl,
    (c6_amended [0x09, 0x06, 0xA1] (by decide) 4 0 0 0 0 0 0 0 none true).2.2.2.2
      (by decide)⟩

/-- C8: `UEvent::parse` applied to the exact kernel-framed byte sequence
`"add@/devices/foo\0ACTION=add\0SUBSYSTEM=hidraw\0DEVPATH=/devices/foo\0"`
succeeds and returns action `Add`, subsystem `"hidraw"`, and device path
`"/devices/foo"`. -/
theorem c8_kernel_uevent :
    uevent_parse (asciiBytes "add@/devices/foo" ++ [0] ++ asciiBytes "ACTION=add" ++ [0] ++
        asciiBytes "SUBSYSTEM=hidraw" ++ [0] ++ asciiBytes "DEVPATH=/devices/foo" ++ [0]) =
      .ok (.ok { action := .Add, subsystem := asciiBytes "hidraw",
                 dev_path := asciiBytes "/devices/foo" }) := rfl

/-- C9: `UEvent::parse` returns the "Message is too short" error for every
input shorter than 32 bytes — even an otherwise well-formed kernel-framed
uevent with `ACTION`, `SUBSYSTEM` and `DEVPATH` — so the 32-byte minimum is
a precondition of successful parsing for all inputs. -/
theorem c9_short_message (event : List Nat) (h : event.length < 32) :
    uevent_parse event = .ok (.error "Message is too short") := by
  unfold uevent_parse
  rw [if_pos h]

/-- A 31-byte kernel-framed uevent whose payload parses successfully
(`ACTION`, `SUBSYSTEM` and `DEVPATH` all present). -/
def short_uevent : List Nat :=
  asciiBytes "a@" ++ [0] ++ asciiBytes "ACTION=a" ++ [0] ++
  asciiBytes "SUBSYSTEM=" ++ [0] ++ asciiBytes "DEVPATH="

/-- Witness for C9 at the 31-byte `short_uevent`: only the length guard
rejects it — its payload past the first NUL parses successfully. -/
theorem c9_short_message_witness :
    short_uevent.length < 32 ∧
    uevent_parse short_uevent = .ok (.error "Message is too short") ∧
    uevent_parse_internal (short_uevent.drop 3) =
      .ok { action := .Other (asciiBytes "a"), subsystem := [], dev_path := [] } :=
  ⟨by decide, c9_short_message short_uevent (by decide), rfl⟩

/-- Stripping a literal head that is present returns the remainder. -/
theorem str_strip_head_append (p r : List Char) : str_strip_head (p ++ r) p = some r := by
  induction p with
  | nil => simp [str_strip_head]
  | cons c cs ih => simp [str_strip_head, ih]

/-- A successful `str_strip_head` decomposes the string. -/
theorem str_strip_head_eq_some {s p r : List Char} (h : str_strip_head s p = some r) :
    s = p ++ r := by
  induction p generalizing s with
  | nil =>
    cases s <;> simpa [str_strip_head] using h
  | cons c cs ih =>
    cases s with
    | nil => simp [str_strip_head] at h
    | cons a as =>
      by_cases hac : a = c
      · subst hac
        simp only [str_strip_head, if_pos rfl] at h
        simpa using ih h
      · simp [str_strip_head, hac] at h

/-- C10: in the Linux backend's `open`, the `DEVNAME` value read from the
uevent properties is normalized as follows: a relative name is joined onto
`/dev/`; an absolute name is accepted unchanged exactly when it starts with
`/dev/` followed by a non-empty remainder; any other absolute name makes
`open` fail with a `Message` error before any file is opened (the `ok`
result of `hidraw_open_dev_path` is the path subsequently opened). -/
theorem c10_dev_name (props n : List Char)
    (h : read_property props (strLit "DEVNAME") = some n) :
    (path_is_absolute n = false → hidraw_open_dev_path props = .ok (devDirChars ++ n)) ∧
    (∀ r, r ≠ [] → n = devDirChars ++ r → hidraw_open_dev_path props = .ok n) ∧
    (path_is_absolute n = true → (∀ r, n = devDirChars ++ r → r = []) →
      hidraw_open_dev_path props =
        .error (.Message "Absolute device paths must start with /dev/")) := by
  unfold hidraw_open_dev_path
  rw [h]
  dsimp only
  refine ⟨?_, ?_, ?_⟩
  · intro habs
    unfold mange_dev_name
    simp [habs]
  · intro r hr hn
    subst hn
    unfold mange_dev_name
    have habs : path_is_absolute (devDirChars ++ r) = true := rfl
    rw [if_pos habs, str_strip_head_append]
    simp [hr]
  · intro habs hno
    unfold mange_dev_name
    rw [if_pos habs]
    cases hs : str_strip_head n devDirChars with
    | none => simp
    | some z =>
      have hz : z = [] := hno z (str_strip_head_eq_some hs)
      subst hz
      simp

/-- Witness for C10: a relative `DEVNAME` is joined onto `/dev/`, and the
absolute `DEVNAME=/dev/` (empty remainder) is rejected with the `Message`
error before any file is opened. -/
theorem c10_dev_name_witness :
    hidraw_open_dev_path (strLit "DEVNAME=hidraw0") = .ok (strLit "/dev/hidraw0") ∧
    hidraw_open_dev_path (strLit "DEVNAME=/dev/") =
      .error (.Message "Absolute device paths must start with /dev/") := by
  have h1 := c10_dev_name (strLit "DEVNAME=hidraw0") (strLit "hidraw0") (by decide)
  have h2 := c10_dev_name (strLit "DEVNAME=/dev/") (strLit "/dev/") (by decide)
  refine ⟨(h1.1 (by decide)).trans rfl, h2.2.2 (by decide) ?_⟩
  intro r hr
  have : strLit "/dev/" = devDirChars := rfl
  rw [this] at hr
  simpa using hr.symm
